import Mathlib

/-!
Verification of the MyCareersFuture job-search server
(`src/mycareersfuture_server_python/main.py`) against its natural-language
specification.  The Python code is shallowly embedded: JSON values become the
inductive `JValue`, Python's partiality (AttributeError, TypeError, ...)
becomes `Except PyErr`, and every function of the source that the claims
mention is translated line by line (`_format_salary`, the posting
normalisation loop of `_request_jobs`, the summary construction of
`_call_tool_request`, and the pydantic input validation of `JobSearchInput`).
-/

/-- A JSON value as Python's `response.json()` produces it.  Numbers are
modelled as integers: every numeric literal appearing in the spec and the
claims is integral, and float rounding is out of scope. -/
inductive JValue where
  | null
  | bool (b : Bool)
  | num (n : Int)
  | str (s : String)
  | arr (xs : List JValue)
  | obj (fields : List (String × JValue))
deriving Repr

/-- The Python exceptions the embedded code can raise. -/
inductive PyErr where
  | attributeError
  | typeError
  | valueError
  | indexError
  | keyError
deriving DecidableEq, Repr

/-- Python truthiness (`bool(x)`) on JSON values. -/
def pyTruthy : JValue → Bool
  | .null => false
  | .bool b => b
  | .num n => n != 0
  | .str s => !s.isEmpty
  | .arr xs => !xs.isEmpty
  | .obj fs => !fs.isEmpty

/-- `a or b` in Python: the first operand when truthy, otherwise the second. -/
def pyOr (a b : JValue) : JValue := if pyTruthy a then a else b

/-- The numeric value of a Python object when it is one (`bool` is an `int`
subclass in Python, so `True` counts as `1`). -/
def pyNumVal : JValue → Option Int
  | .num n => some n
  | .bool b => some (if b then 1 else 0)
  | _ => none

mutual

/-- Structural equality on `JValue`, the base of `pyEq`. -/
def JValue.beq : JValue → JValue → Bool
  | .null, .null => true
  | .bool a, .bool b => a == b
  | .num a, .num b => a == b
  | .str a, .str b => a == b
  | .arr a, .arr b => JValue.beqList a b
  | .obj a, .obj b => JValue.beqFields a b
  | _, _ => false

def JValue.beqList : List JValue → List JValue → Bool
  | [], [] => true
  | a :: as, b :: bs => JValue.beq a b && JValue.beqList as bs
  | _, _ => false

def JValue.beqFields : List (String × JValue) → List (String × JValue) → Bool
  | [], [] => true
  | (k, v) :: as, (l, w) :: bs => k == l && JValue.beq v w && JValue.beqFields as bs
  | _, _ => false

end

/-- Python `==` on JSON values.  Numbers and booleans compare by numeric value
(`1 == True` in Python); otherwise the comparison is structural.  (Python also
applies numeric comparison elementwise inside containers; no container ever
reaches the one `!=` of the source, `minimum != maximum`.) -/
def pyEq (a b : JValue) : Bool :=
  match pyNumVal a, pyNumVal b with
  | some x, some y => x == y
  | _, _ => JValue.beq a b

/-- Association lookup in a JSON object (JSON objects have unique keys). -/
def jlookup : List (String × JValue) → String → Option JValue
  | [], _ => none
  | (k, v) :: rest, key => if k = key then some v else jlookup rest key

/-- Python `v.get(key, dflt)`: only dictionaries have `.get`; a present key
wins even when its value is `None`. -/
def pyDictGet (v : JValue) (key : String) (dflt : JValue) : Except PyErr JValue :=
  match v with
  | .obj fs => .ok ((jlookup fs key).getD dflt)
  | _ => .error .attributeError

/-- Python iteration `for x in v`: lists yield elements, strings yield
one-character strings, dictionaries yield their keys; other values raise
`TypeError`. -/
def pyIterate : JValue → Except PyErr (List JValue)
  | .arr xs => .ok xs
  | .str s => .ok (s.data.map (fun c => .str (String.singleton c)))
  | .obj fs => .ok (fs.map (fun p => .str p.1))
  | .null => .error .typeError
  | .num _ => .error .typeError
  | .bool _ => .error .typeError

/-- Python `v[0]` as used for `districts[0]`. -/
def pySubscriptZero : JValue → Except PyErr JValue
  | .arr (x :: _) => .ok x
  | .arr [] => .error .indexError
  | .str s => if s.isEmpty then .error .indexError else .ok (.str (String.singleton s.front))
  | .obj _ => .error .keyError
  | .null => .error .typeError
  | .num _ => .error .typeError
  | .bool _ => .error .typeError

/-! ### Decimal rendering of integers (Python `str(int)` and `format(int, ",.0f")`) -/

/-- Little-endian decimal digits of `n`, with `fuel` bounding the recursion
(structural, so that the kernel can evaluate it; `fuel = n` always suffices). -/
def digitsRevAux : Nat → Nat → List Nat
  | _, 0 => []
  | 0, _+1 => []
  | f+1, n+1 => ((n+1) % 10) :: digitsRevAux f ((n+1) / 10)

/-- Little-endian decimal digits of a natural number (empty for `0`). -/
def digitsRev (n : Nat) : List Nat := digitsRevAux n n

/-- Value of a little-endian digit list, inverse of `digitsRev`. -/
def ofDigitsRev : List Nat → Nat
  | [] => 0
  | d :: ds => d + 10 * ofDigitsRev ds

/-- A decimal digit as a character. -/
def digitChar (d : Nat) : Char :=
  match d with
  | 0 => '0' | 1 => '1' | 2 => '2' | 3 => '3' | 4 => '4'
  | 5 => '5' | 6 => '6' | 7 => '7' | 8 => '8' | 9 => '9'
  | _ => '?'

/-- The decimal digit characters of a natural number, most significant first. -/
def natDecChars (n : Nat) : List Char :=
  if n = 0 then ['0'] else ((digitsRev n).map digitChar).reverse

/-- Python `str(n)` for a natural number. -/
def natToDecimal (n : Nat) : String := ⟨natDecChars n⟩

/-- Python `str(n)` for an integer. -/
def intRepr (n : Int) : String :=
  if n < 0 then "-" ++ natToDecimal n.natAbs else natToDecimal n.natAbs

/-- Insert a comma after every three characters of a little-endian digit list:
the grouping of Python's `","` format spec. -/
def group3 : List Char → List Char
  | a :: b :: c :: d :: rest => a :: b :: c :: ',' :: group3 (d :: rest)
  | l => l

/-- Python `format(n, ",d")`-style rendering of a natural number. -/
def commaFmtNat (n : Nat) : String := ⟨(group3 (natDecChars n).reverse).reverse⟩

/-- Python `f"{n:,.0f}"` (also `f"{n:,}"`) for an integer: thousands
separators, no decimals. -/
def commaFmt (n : Int) : String :=
  (if n < 0 then "-" else "") ++ commaFmtNat n.natAbs

/-- The `f"...{v:,.0f}"` conversion applied to an arbitrary value: numbers
format, strings raise `ValueError`, everything else `TypeError` (Python
`bool` formats as an `int`). -/
def fmtNum : JValue → Except PyErr String
  | .num n => .ok (commaFmt n)
  | .bool b => .ok (commaFmt (if b then 1 else 0))
  | .str _ => .error .valueError
  | .null => .error .typeError
  | .arr _ => .error .typeError
  | .obj _ => .error .typeError

/-! ### Python string helpers -/

/-- Python's ASCII whitespace as stripped by `str.strip()`. -/
def isPySpace (c : Char) : Bool :=
  c = ' ' || c = '\t' || c = '\n' || c = '\r' || c = '\x0b' || c = '\x0c'

/-- Python `s.strip()` (the source only ever strips ASCII whitespace). -/
def pyStrip (s : String) : String :=
  ⟨((s.data.dropWhile isPySpace).reverse.dropWhile isPySpace).reverse⟩

/-- One pass of `str.title()`: a letter is uppercased after a non-letter and
lowercased after a letter (ASCII semantics of the source's salary types). -/
def titleCore : Bool → List Char → List Char
  | _, [] => []
  | prev, c :: cs =>
      (if c.isAlpha then (if prev then c.toLower else c.toUpper) else c)
        :: titleCore c.isAlpha cs

/-- Python `s.title()`. -/
def titleStr (s : String) : String := ⟨titleCore false s.data⟩

/-- Python `s.title()` on an arbitrary value: only strings have `.title`. -/
def pyTitle : JValue → Except PyErr String
  | .str s => .ok (titleStr s)
  | _ => .error .attributeError

/-- Python `int(s)` on a string: optional sign and decimal digits, surrounded
by optional whitespace.  (Python additionally accepts underscore separators
between digits; no claim exercises them.) -/
def parseIntPy (s : String) : Option Int :=
  match (pyStrip s).data with
  | [] => none
  | c :: rest =>
    let (neg, ds) :=
      if c = '-' then (true, rest)
      else if c = '+' then (false, rest)
      else (false, c :: rest)
    if ds.isEmpty || !ds.all Char.isDigit then none
    else
      let n : Nat := ds.foldl (fun acc d => acc * 10 + (d.toNat - 48)) 0
      some (if neg then -(n : Int) else (n : Int))

/-- Python `int(v)` as applied to the provider's `total` field. -/
def pyInt : JValue → Except PyErr Int
  | .num n => .ok n
  | .bool b => .ok (if b then 1 else 0)
  | .str s => match parseIntPy s with | some n => .ok n | none => .error .valueError
  | .null => .error .typeError
  | .arr _ => .error .typeError
  | .obj _ => .error .typeError

mutual

/-- Python `repr` restricted to JSON values (string escaping inside `repr`
is simplified to plain quoting; no claim inspects it). -/
def pyReprM : JValue → String
  | .null => "None"
  | .bool true => "True"
  | .bool false => "False"
  | .num n => intRepr n
  | .str s => "'" ++ s ++ "'"
  | .arr xs => "[" ++ pyReprListM xs ++ "]"
  | .obj fs => "\x7b" ++ pyReprFieldsM fs ++ "\x7d"

def pyReprListM : List JValue → String
  | [] => ""
  | [x] => pyReprM x
  | x :: y :: xs => pyReprM x ++ ", " ++ pyReprListM (y :: xs)

def pyReprFieldsM : List (String × JValue) → String
  | [] => ""
  | [(k, v)] => pyReprM (.str k) ++ ": " ++ pyReprM v
  | (k, v) :: q :: xs => pyReprM (.str k) ++ ": " ++ pyReprM v ++ ", " ++ pyReprFieldsM (q :: xs)

end

/-- Python `str(v)`: like `repr` except that a top-level string passes
through unquoted. -/
def pyStr : JValue → String
  | .str s => s
  | .null => "None"
  | .bool true => "True"
  | .bool false => "False"
  | .num n => intRepr n
  | .arr xs => "[" ++ pyReprListM xs ++ "]"
  | .obj fs => "\x7b" ++ pyReprFieldsM fs ++ "\x7d"

/-! ### `_format_salary` (main.py lines 84-100) -/

/-- Python `v is None`. -/
def pyIsNone : JValue → Bool
  | .null => true
  | _ => false

/-- The tail of `_format_salary` once the three fields are extracted
(still in source order: `salary_type` is read off the `type` record before
the both-`None` check). -/
def formatSalaryCore (minimum maximum typeObj : JValue) :
    Except PyErr (Option String) := do
  let salaryType ← pyDictGet typeObj "salaryType" (.str "")
  if pyIsNone minimum && pyIsNone maximum then
    return none
  let salaryRange : Option String ←
    if pyTruthy minimum && pyTruthy maximum && !pyEq minimum maximum then do
      let a ← fmtNum minimum
      let b ← fmtNum maximum
      pure (some ("$" ++ a ++ " – $" ++ b))
    else do
      let value := match minimum with | .null => maximum | _ => minimum
      match value with
      | .null => pure none
      | v => do
          let a ← fmtNum v
          pure (some ("$" ++ a))
  match salaryRange with
  | none => return none
  | some sr =>
    if sr.isEmpty then return none
    else if pyTruthy salaryType then do
      let t ← pyTitle salaryType
      return some (sr ++ " " ++ t)
    else return some sr

/-- `_format_salary(raw)`, translated statement by statement; `.ok none`
is Python's `None` result, `.error` a raised exception. -/
def formatSalary (raw : JValue) : Except PyErr (Option String) := do
  if !pyTruthy raw then return none
  let minimum ← pyDictGet raw "minimum" .null
  let maximum ← pyDictGet raw "maximum" .null
  let typeObj ← pyDictGet raw "type" (.obj [])
  formatSalaryCore minimum maximum typeObj

example : formatSalary .null = .ok none := by rfl
example : formatSalary (.obj []) = .ok none := by rfl
example : formatSalary (.obj [("minimum", .num 3000), ("maximum", .num 5000)])
    = .ok (some "$3,000 – $5,000") := by rfl
example : formatSalary
    (.obj [("minimum", .num 1000), ("maximum", .num 1000),
           ("type", .obj [("salaryType", .str "Monthly")])])
    = .ok (some "$1,000 Monthly") := by rfl
example : formatSalary (.obj [("minimum", .num 0), ("maximum", .num 5000)])
    = .ok (some "$0") := by rfl
example : formatSalary (.obj [("type", .null)]) = .error .attributeError := by rfl

/-! ### The normalisation loop of `_request_jobs` (main.py lines 180-251) -/

/-- `JobPosting` (main.py lines 37-55).  Fields the source computes with
`str(...)` are `String`; `salary` is the salary formatter's optional string;
fields stored verbatim from the provider keep the raw value (`.null` for
Python `None`) since the dataclass performs no validation. -/
structure JobPosting where
  id : String
  title : String
  company : JValue
  url : JValue
  salary : Option String
  location : JValue
  region : JValue
  categories : List String
  employment_types : List String
  skills : List String
  updated_at : JValue
  posted_at : JValue
  score : JValue
  lat : JValue
  lng : JValue

/-- `JobSearchResult` (main.py lines 77-81). -/
structure JobSearchResult where
  search_term : String
  total : Int
  jobs : List JobPosting

/-- One comprehension step list:
`[str(cat.get(key)) for cat in xs if cat and cat.get(key)]`. -/
def extractNamesList (key : String) : List JValue → Except PyErr (List String)
  | [] => .ok []
  | cat :: rest => do
    if pyTruthy cat then
      let g ← pyDictGet cat key .null
      if pyTruthy g then
        let tail ← extractNamesList key rest
        .ok (pyStr g :: tail)
      else
        extractNamesList key rest
    else
      extractNamesList key rest

/-- The comprehension applied to whatever `item.get(...)` returned. -/
def extractNames (key : String) (v : JValue) : Except PyErr (List String) := do
  let xs ← pyIterate v
  extractNamesList key xs

/-- `metadata.get("jobPostId") or item.get("uuid") or len(postings)`
with Python's short-circuit evaluation (main.py lines 214-216). -/
def rawIdValFrom (metadata item : JValue) (idx : Nat) : Except PyErr JValue := do
  let jobPostId ← pyDictGet metadata "jobPostId" .null
  if pyTruthy jobPostId then
    pure jobPostId
  else do
    let uuid ← pyDictGet item "uuid" .null
    if pyTruthy uuid then pure uuid else pure (.num (Int.ofNat idx))

/-- The raw id value of one item, recomputing `metadata` the way the loop
body does (used to state the id-uniqueness claim). -/
def rawIdVal (item : JValue) (idx : Nat) : Except PyErr JValue := do
  let metadataRaw ← pyDictGet item "metadata" (.obj [])
  rawIdValFrom (pyOr metadataRaw (.obj [])) item idx

/-- `districts[0] if districts else {}` (main.py line 204). -/
def primaryDistrictOf (districts : JValue) : Except PyErr JValue :=
  if pyTruthy districts then pySubscriptZero districts else pure (.obj [])

/-- `address.get("street") or primary_district.get("location") or
address.get("district")` with Python's short-circuiting (main.py
lines 205-209). -/
def locationOf (address primary_district : JValue) : Except PyErr JValue := do
  let street ← pyDictGet address "street" .null
  if pyTruthy street then pure street
  else do
    let ploc ← pyDictGet primary_district "location" .null
    if pyTruthy ploc then pure ploc
    else pyDictGet address "district" .null

/-- The body of the `for item in raw_results` loop (main.py lines 184-233),
producing the posting appended for `item` when `len(postings) = idx`. -/
def normalizeItem (item : JValue) (idx : Nat) : Except PyErr JobPosting := do
  let metadataRaw ← pyDictGet item "metadata" (.obj [])
  let metadata := pyOr metadataRaw (.obj [])
  let postedCompanyRaw ← pyDictGet item "postedCompany" .null
  let posted_company := pyOr postedCompanyRaw (.obj [])
  let addressRaw ← pyDictGet item "address" .null
  let address := pyOr addressRaw (.obj [])
  let categoriesRaw ← pyDictGet item "categories" (.arr [])
  let categories ← extractNames "category" categoriesRaw
  let employmentTypesRaw ← pyDictGet item "employmentTypes" (.arr [])
  let employment_types ← extractNames "employmentType" employmentTypesRaw
  let skillsRaw ← pyDictGet item "skills" (.arr [])
  let skills ← extractNames "skill" skillsRaw
  let districtsRaw ← pyDictGet address "districts" .null
  let districts := pyOr districtsRaw (.arr [])
  let primary_district ← primaryDistrictOf districts
  let location ← locationOf address primary_district
  let salaryRaw ← pyDictGet item "salary" .null
  let salary ← formatSalary salaryRaw
  let idVal ← rawIdValFrom metadata item idx
  let titleV ← pyDictGet item "title" .null
  let title := pyStr (pyOr titleV (.str "Untitled role"))
  let company ← pyDictGet posted_company "name" .null
  let url ← pyDictGet metadata "jobDetailsUrl" .null
  let region ← pyDictGet primary_district "region" .null
  let updated_at ← pyDictGet metadata "updatedAt" .null
  let posted_at ← pyDictGet metadata "newPostingDate" .null
  let score ← pyDictGet item "score" .null
  let lat ← pyDictGet address "lat" .null
  let lng ← pyDictGet address "lng" .null
  .ok { id := pyStr idVal, title, company, url, salary, location, region,
        categories, employment_types, skills, updated_at, posted_at,
        score, lat, lng }

/-- The whole loop: `postings` grows by one per item, so the fallback index
of the item at position `i` is `start + i`. -/
def normalizeAll : List JValue → Nat → Except PyErr (List JobPosting)
  | [], _ => .ok []
  | item :: rest, idx => do
    let p ← normalizeItem item idx
    let ps ← normalizeAll rest (idx + 1)
    .ok (p :: ps)

/-- The raw id values of all items, in step with `normalizeAll`. -/
def rawIdVals : List JValue → Nat → Except PyErr (List JValue)
  | [], _ => .ok []
  | item :: rest, idx => do
    let v ← rawIdVal item idx
    let vs ← rawIdVals rest (idx + 1)
    .ok (v :: vs)

/-- `(payload.search_term or "software engineer").strip() or
"software engineer"` (main.py lines 144-147); `none` is a `None`
`search_term`. -/
def resolveTerm (searchTerm : Option String) : String :=
  let s := match searchTerm with
    | none => "software engineer"
    | some s => if s.isEmpty then "software engineer" else s
  let t := pyStrip s
  if t.isEmpty then "software engineer" else t

/-- The response processing of `_request_jobs` (main.py lines 180-251): from
the decoded JSON body to the `JobSearchResult`.  The HTTP transport itself
(and its `TransportError` path) is outside the embedding; `data` is the
parsed body of a successful response. -/
def requestJobsPure (searchTerm : Option String) (data : JValue) :
    Except PyErr JobSearchResult := do
  let term := resolveTerm searchTerm
  let rawResultsV ← pyDictGet data "results" (.arr [])
  let raw_results := pyOr rawResultsV (.arr [])
  let items ← pyIterate raw_results
  let postings ← normalizeAll items 0
  let totalV ← pyDictGet data "total" .null
  let total_results ← pyInt (pyOr totalV (.num (Int.ofNat postings.length)))
  .ok { search_term := term, total := total_results, jobs := postings }

/-- The human-readable summary built by `_call_tool_request`
(main.py lines 540-548). -/
def textSummary (result : JobSearchResult) : String :=
  if !result.jobs.isEmpty then
    "Found " ++ commaFmt result.total ++ " jobs for '" ++ result.search_term
      ++ "'. Showing top " ++ natToDecimal result.jobs.length
      ++ " results in the carousel."
  else
    "No jobs found for '" ++ result.search_term ++ "'. Try a broader search."

example : requestJobsPure (some "x") (.obj []) = .ok ⟨"x", 0, []⟩ := by rfl
example :
    (requestJobsPure (some "x")
      (.obj [("results", .arr [.obj []]), ("total", .num 150)])).map
      (fun r => (r.total, r.jobs.length, (r.jobs.map JobPosting.id))) =
    .ok (150, 1, ["0"]) := by rfl
example :
    (requestJobsPure (some "x")
      (.obj [("results", .arr [.obj []]), ("total", .num 0)])).map
      (fun r => r.total) = .ok 1 := by rfl
example :
    textSummary ⟨"x", 0, []⟩ = "No jobs found for 'x'. Try a broader search." := by rfl

/-! ### `JobSearchInput` validation and tool dispatch (main.py lines 109-139, 460-492) -/

/-- The validated tool input (main.py lines 109-139): `search_term` keeps
pydantic's `Optional[str]` (a `null` argument yields `none`, an absent one
the default string). -/
structure JobSearchInput where
  search_term : Option String
  limit : Int
  page : Int

/-- The argument keys the model accepts (`populate_by_name=True` admits the
field name next to the alias; `extra="forbid"` rejects everything else). -/
def knownKeys : List String := ["searchTerm", "search_term", "limit", "page"]

/-- Validation of the optional `searchTerm` argument: a string or an
explicit `null` passes, anything else is a type error. -/
def validateSearchTerm : Option JValue → Except (List String) (Option String)
  | none => .ok (some "software engineer")
  | some (.str s) => .ok (some s)
  | some .null => .ok none
  | some _ => .error ["searchTerm: str expected"]

/-- Validation of an integer argument with `ge`/`le` bounds, in pydantic's
lax mode (an integral string coerces, a bool or any other shape does not). -/
def validateIntArg (name : String) (lo hi dflt : Int) :
    Option JValue → Except (List String) Int
  | none => .ok dflt
  | some v =>
    match v with
    | .num n =>
        if lo ≤ n ∧ n ≤ hi then .ok n
        else .error [name ++ ": out of range"]
    | .str s =>
        match parseIntPy s with
        | some n =>
            if lo ≤ n ∧ n ≤ hi then .ok n
            else .error [name ++ ": out of range"]
        | none => .error [name ++ ": int expected"]
    | _ => .error [name ++ ": int expected"]

/-- The helper turning a field result into the error list it contributes. -/
def errsOf {α : Type} : Except (List String) α → List String
  | .ok _ => []
  | .error es => es

/-- `JobSearchInput.model_validate(arguments)` (pydantic v2 semantics for
this model): unknown keys are rejected (`extra="forbid"`), all field errors
are collected, defaults fill absent fields. -/
def modelValidate (args : List (String × JValue)) :
    Except (List String) JobSearchInput :=
  let extraErrs :=
    (args.filter (fun p => !knownKeys.contains p.1)).map
      (fun p => "extra_forbidden: " ++ p.1)
  let stArg := match jlookup args "searchTerm" with
    | some v => some v
    | none => jlookup args "search_term"
  let stR := validateSearchTerm stArg
  let limitR := validateIntArg "limit" 1 50 20 (jlookup args "limit")
  let pageR := validateIntArg "page" 0 50 0 (jlookup args "page")
  let allErrs := extraErrs ++ errsOf stR ++ errsOf limitR ++ errsOf pageR
  if allErrs.isEmpty then
    match stR, limitR, pageR with
    | .ok st, .ok limit, .ok page => .ok { search_term := st, limit, page }
    | _, _, _ => .error allErrs
  else .error allErrs

/-- What `_call_tool_request` does before any network traffic
(main.py lines 460-492).  `unknownTool` and `validationError` are the two
early `CallToolResult(isError=True, ...)` replies; only `proceed` goes on to
call `_request_jobs` (the one network call). -/
inductive ToolOutcome where
  | unknownTool (text : String)
  | validationError (errors : List String)
  | proceed (payload : JobSearchInput)

/-- The registered tool name (main.py line 256). -/
def TOOL_NAME : String := "mycf-job-list"

/-- The pre-network phase of `_call_tool_request`: tool-name check, then
`arguments or {}`, then validation. -/
def callToolStage (name : String) (arguments : Option (List (String × JValue))) :
    ToolOutcome :=
  if name ≠ TOOL_NAME then
    .unknownTool ("Unknown tool: " ++ name)
  else
    let args := arguments.getD []
    match modelValidate args with
    | .error errs => .validationError errs
    | .ok payload => .proceed payload

example :
    callToolStage "mycf-job-list" (some [("limit", .num 51)]) =
      .validationError ["limit: out of range"] := by rfl
example :
    callToolStage "other" (some [("limit", .num 51)]) =
      .unknownTool "Unknown tool: other" := by rfl
example :
    callToolStage "mycf-job-list" (some [("page", .num 3), ("bogus", .null)]) =
      .validationError ["extra_forbidden: bogus"] := by rfl
example :
    callToolStage "mycf-job-list" none =
      .proceed { search_term := some "software engineer", limit := 20, page := 0 } := by rfl

/-! ### Well-formed provider shapes

The spec (sections 3 and 4) documents the provider fields as: `minimum` /
`maximum` numbers, `type.salaryType` a string, `metadata` / `postedCompany` /
`address` nested records, `categories` / `employmentTypes` / `skills` lists
of records, `districts` a list of records.  The predicates below capture
"each field, when present, has its documented shape (or is empty/None where
the code's `or` defaults absorb that)". -/

/-- The value is a JSON object. -/
def isObj : JValue → Bool
  | .obj _ => true
  | _ => false

/-- Falsy values are absorbed by the code's `or {}` defaults; truthy ones
must be objects. -/
def objish (v : JValue) : Bool := !pyTruthy v || isObj v

/-- A salary bound: absent, `null`, or a number (`bool` formats as an
`int`). -/
def wfBound : Option JValue → Bool
  | none => true
  | some .null => true
  | some (.num _) => true
  | some (.bool _) => true
  | _ => false

/-- The nested `type` record: absent, or an object whose `salaryType` is
absent, `null` or a string. -/
def wfTypeField : Option JValue → Bool
  | none => true
  | some (.obj tfs) =>
      match jlookup tfs "salaryType" with
      | none => true
      | some .null => true
      | some (.str _) => true
      | _ => false
  | _ => false

/-- A well-formed raw salary record: any falsy value, or an object with
well-formed `minimum`, `maximum` and `type` fields. -/
def wfSalary (raw : JValue) : Bool :=
  !pyTruthy raw ||
    (match raw with
     | .obj fs =>
         wfBound (jlookup fs "minimum") && wfBound (jlookup fs "maximum")
           && wfTypeField (jlookup fs "type")
     | _ => false)

/-- A list field (`categories`, `employmentTypes`, `skills`): absent, or a
list each of whose entries is falsy (skipped) or an object. -/
def wfNameList : Option JValue → Bool
  | none => true
  | some (.arr xs) => xs.all (fun c => !pyTruthy c || isObj c)
  | _ => false

/-- The `districts` field of `address`: falsy (absorbed by `or []`), or a
non-empty list whose first entry is an object. -/
def wfDistricts (v : JValue) : Bool :=
  !pyTruthy v ||
    (match v with
     | .arr (x :: _) => isObj x
     | _ => false)

/-- The `address` field: falsy, or an object with well-formed `districts`. -/
def wfAddress (v : JValue) : Bool :=
  !pyTruthy v ||
    (match v with
     | .obj afs => wfDistricts ((jlookup afs "districts").getD .null)
     | _ => false)

/-- A well-formed raw search-result item. -/
def wfItem (item : JValue) : Bool :=
  match item with
  | .obj fs =>
      objish ((jlookup fs "metadata").getD .null)
        && objish ((jlookup fs "postedCompany").getD .null)
        && wfAddress ((jlookup fs "address").getD .null)
        && wfNameList (jlookup fs "categories")
        && wfNameList (jlookup fs "employmentTypes")
        && wfNameList (jlookup fs "skills")
        && wfSalary ((jlookup fs "salary").getD .null)
  | _ => false

/-- The `total` field: absent or falsy (the code then falls back to the
posting count), a number, a bool, or an integral string. -/
def wfTotal : Option JValue → Bool
  | none => true
  | some v =>
      !pyTruthy v ||
        (match v with
         | .num _ => true
         | .bool _ => true
         | .str s => (parseIntPy s).isSome
         | _ => false)

/-- A well-formed provider response body: an object whose `results`, when
truthy, is a list of well-formed items, and whose `total` is well-formed. -/
def wfData (data : JValue) : Bool :=
  match data with
  | .obj fs =>
      (match jlookup fs "results" with
       | none => true
       | some v => !pyTruthy v || (match v with
           | .arr xs => xs.all wfItem
           | _ => false))
        && wfTotal (jlookup fs "total")
  | _ => false

/-! ### Injectivity of the decimal rendering (backs the positional-id
uniqueness of the normalizer) -/

theorem digitsRevAux_lt_ten : ∀ f n d, d ∈ digitsRevAux f n → d < 10 := by
  intro f
  induction f with
  | zero => intro n d hd; cases n <;> simp [digitsRevAux] at hd
  | succ f ih =>
    intro n d hd
    cases n with
    | zero => simp [digitsRevAux] at hd
    | succ m =>
      simp only [digitsRevAux, List.mem_cons] at hd
      rcases hd with h | h
      · subst h; exact Nat.mod_lt _ (by omega)
      · exact ih _ _ h

theorem ofDigitsRev_digitsRevAux : ∀ f n, n ≤ f → ofDigitsRev (digitsRevAux f n) = n := by
  intro f
  induction f with
  | zero =>
    intro n h
    interval_cases n
    simp [digitsRevAux, ofDigitsRev]
  | succ f ih =>
    intro n h
    cases n with
    | zero => simp [digitsRevAux, ofDigitsRev]
    | succ m =>
      have hlt : (m + 1) / 10 < m + 1 := Nat.div_lt_self (by omega) (by omega)
      have hdiv : (m + 1) / 10 ≤ f := by omega
      simp only [digitsRevAux, ofDigitsRev, ih _ hdiv]
      omega

theorem digitsRev_ne_nil (n : Nat) (hn : n ≠ 0) : digitsRev n ≠ [] := by
  cases n with
  | zero => exact absurd rfl hn
  | succ m => simp [digitsRev, digitsRevAux]

theorem digitChar_inj : ∀ a b, a < 10 → b < 10 → digitChar a = digitChar b → a = b := by
  intro a b ha hb
  interval_cases a <;> interval_cases b <;> decide

theorem map_digitChar_inj :
    ∀ l₁ l₂ : List Nat, (∀ d ∈ l₁, d < 10) → (∀ d ∈ l₂, d < 10) →
      l₁.map digitChar = l₂.map digitChar → l₁ = l₂ := by
  intro l₁
  induction l₁ with
  | nil => intro l₂ _ _ h; cases l₂ <;> simp_all
  | cons a as ih =>
    intro l₂ h1 h2 h
    cases l₂ with
    | nil => simp at h
    | cons b bs =>
      simp only [List.map_cons, List.cons.injEq] at h
      obtain ⟨hab, hrest⟩ := h
      have hab2 : a = b :=
        digitChar_inj a b (h1 a (by simp)) (h2 b (by simp)) hab
      subst hab2
      have := ih bs (fun d hd => h1 d (by simp [hd])) (fun d hd => h2 d (by simp [hd])) hrest
      simp [this]

theorem natDecChars_inj : ∀ m n, natDecChars m = natDecChars n → m = n := by
  have key : ∀ n, n ≠ 0 → natDecChars n = ((digitsRev n).map digitChar).reverse :=
    fun n hn => by simp [natDecChars, hn]
  have val : ∀ m n, m ≠ 0 → n ≠ 0 → natDecChars m = natDecChars n → m = n := by
    intro m n hm hn h
    rw [key m hm, key n hn] at h
    have h2 := List.reverse_injective h
    have h3 := map_digitChar_inj _ _ (fun d hd => digitsRevAux_lt_ten _ _ _ hd)
      (fun d hd => digitsRevAux_lt_ten _ _ _ hd) h2
    calc m = ofDigitsRev (digitsRev m) := (ofDigitsRev_digitsRevAux m m le_rfl).symm
    _ = ofDigitsRev (digitsRev n) := by unfold digitsRev; rw [h3]
    _ = n := ofDigitsRev_digitsRevAux n n le_rfl
  have zero_case : ∀ n, n ≠ 0 → natDecChars n ≠ natDecChars 0 := by
    intro n hn h
    rw [key n hn] at h
    have h0 : natDecChars 0 = ['0'] := by simp [natDecChars]
    rw [h0] at h
    have h2 : (digitsRev n).map digitChar = ['0'] := by
      have := congrArg List.reverse h
      simpa using this
    cases hds : digitsRev n with
    | nil => rw [hds] at h2; simp at h2
    | cons d rest =>
      cases rest with
      | cons e rest2 => rw [hds] at h2; simp at h2
      | nil =>
        rw [hds] at h2
        simp only [List.map_cons, List.map_nil, List.cons.injEq] at h2
        have hd10 : d < 10 := digitsRevAux_lt_ten n n d (by
          rw [show digitsRevAux n n = digitsRev n from rfl, hds]; simp)
        have hd0 : d = 0 := digitChar_inj d 0 hd10 (by omega) (by simpa using h2.1)
        have hv : ofDigitsRev (digitsRev n) = n := ofDigitsRev_digitsRevAux n n le_rfl
        rw [hds, hd0] at hv
        simp [ofDigitsRev] at hv
        exact hn hv.symm
  intro m n h
  by_cases hm : m = 0 <;> by_cases hn : n = 0
  · omega
  · subst hm; exact absurd h.symm (zero_case n hn)
  · subst hn; exact absurd h (zero_case m hm)
  · exact val m n hm hn h

theorem natToDecimal_inj : ∀ m n, natToDecimal m = natToDecimal n → m = n := by
  intro m n h
  exact natDecChars_inj m n (congrArg String.data h)

theorem natDecChars_ne_nil (n : Nat) : natDecChars n ≠ [] := by
  by_cases hn : n = 0
  · subst hn; simp [natDecChars]
  · rw [natDecChars, if_neg hn]
    simp only [ne_eq, List.reverse_eq_nil_iff, List.map_eq_nil_iff]
    exact digitsRev_ne_nil n hn

theorem natToDecimal_ne_empty (n : Nat) : natToDecimal n ≠ "" := by
  intro h
  exact natDecChars_ne_nil n (congrArg String.data h)

/-! ### Helper lemmas on the embedding -/

theorem exceptBind_ok {ε α β : Type} (x : Except ε α) (f : α → Except ε β) (b : β) :
    (x >>= f) = .ok b ↔ ∃ a, x = .ok a ∧ f a = .ok b := by
  cases x <;> simp [Bind.bind, Except.bind]

theorem exceptPure_eq {ε α : Type} (a : α) : (pure a : Except ε α) = .ok a := rfl

theorem intRepr_ne_empty (n : Int) : intRepr n ≠ "" := by
  intro h
  have hd := congrArg String.data h
  unfold intRepr at hd
  split at hd
  · rw [String.data_append] at hd
    simp at hd
  · exact natDecChars_ne_nil n.natAbs hd

theorem pyStr_ne_empty (v : JValue) (hv : pyTruthy v = true) : pyStr v ≠ "" := by
  cases v with
  | null => simp [pyTruthy] at hv
  | bool b =>
    cases b with
    | false => simp [pyTruthy] at hv
    | true => exact fun h => absurd h (by decide)
  | num n => exact intRepr_ne_empty n
  | str s =>
    intro h
    rw [show pyStr (.str s) = s from rfl] at h
    subst h
    exact absurd hv (by decide)
  | arr xs =>
    intro h
    have hd := congrArg String.data h
    rw [show pyStr (.arr xs) = "[" ++ pyReprListM xs ++ "]" from rfl,
      String.data_append, String.data_append] at hd
    simp at hd
  | obj fs =>
    intro h
    have hd := congrArg String.data h
    rw [show pyStr (.obj fs) = "\x7b" ++ pyReprFieldsM fs ++ "\x7d" from rfl,
      String.data_append, String.data_append] at hd
    simp at hd

theorem pyStr_num_ofNat (i : Nat) : pyStr (.num (Int.ofNat i)) = natToDecimal i := by
  show intRepr (Int.ofNat i) = natToDecimal i
  unfold intRepr
  split
  · next h => exact absurd h (not_lt.mpr (Int.ofNat_nonneg i))
  · next h => rfl

/-- If the id value of an item is not a provider value, it is the fallback
`len(postings)`. -/
theorem rawIdValFrom_cases (metadata item : JValue) (idx : Nat) (v : JValue)
    (h : rawIdValFrom metadata item idx = .ok v) :
    pyTruthy v = true ∨ v = .num (Int.ofNat idx) := by
  unfold rawIdValFrom at h
  rw [exceptBind_ok] at h
  obtain ⟨jp, hjp, h⟩ := h
  split at h
  · cases h; left; assumption
  · rw [exceptBind_ok] at h
    obtain ⟨uu, huu, h⟩ := h
    split at h
    · cases h; left; assumption
    · cases h; right; rfl

theorem rawIdVal_cases (item : JValue) (idx : Nat) (v : JValue)
    (h : rawIdVal item idx = .ok v) :
    pyTruthy v = true ∨ v = .num (Int.ofNat idx) := by
  unfold rawIdVal at h
  rw [exceptBind_ok] at h
  obtain ⟨m, hm, h⟩ := h
  exact rawIdValFrom_cases _ _ _ _ h

/-- A normalized posting's id is the `str(...)` of the raw id value of its
item. -/
theorem normalizeItem_id (item : JValue) (idx : Nat) (p : JobPosting)
    (h : normalizeItem item idx = .ok p) :
    ∃ v, rawIdVal item idx = .ok v ∧ p.id = pyStr v := by
  unfold normalizeItem at h
  rw [exceptBind_ok] at h
  obtain ⟨mraw, hmraw, h⟩ := h
  simp only [exceptBind_ok] at h
  obtain ⟨pc, hpc, ar, har, catsr, hcatsr, cats, hcats, empr, hempr, emp, hemp,
    skr, hskr, sk, hsk, dsr, hdsr, pd, hpd, loc, hloc, salr, hsalr, sal, hsal,
    idv, hidv, tv, htv, co, hco, u, hu, re, hre, ua, hua, pa, hpa, sc, hsc,
    la, hla, ln, hln, hfin⟩ := h
  refine ⟨idv, ?_, ?_⟩
  · unfold rawIdVal
    rw [exceptBind_ok]
    exact ⟨mraw, hmraw, hidv⟩
  · cases hfin
    rfl

/-- The ids of a normalized batch are exactly `str` of the raw id values. -/
theorem normalizeAll_ids : ∀ (items : List JValue) (k : Nat) (ps : List JobPosting),
    normalizeAll items k = .ok ps →
    ∃ vs, rawIdVals items k = .ok vs ∧ ps.map JobPosting.id = vs.map pyStr := by
  intro items
  induction items with
  | nil =>
    intro k ps h
    cases h
    exact ⟨[], rfl, rfl⟩
  | cons item rest ih =>
    intro k ps h
    unfold normalizeAll at h
    rw [exceptBind_ok] at h
    obtain ⟨p, hp, h⟩ := h
    rw [exceptBind_ok] at h
    obtain ⟨ps2, hps2, h⟩ := h
    cases h
    obtain ⟨v, hv, hid⟩ := normalizeItem_id item k p hp
    obtain ⟨vs2, hvs2, hids2⟩ := ih (k + 1) ps2 hps2
    refine ⟨v :: vs2, ?_, ?_⟩
    · unfold rawIdVals
      rw [exceptBind_ok]
      refine ⟨v, hv, ?_⟩
      rw [exceptBind_ok]
      exact ⟨vs2, hvs2, rfl⟩
    · simp [hid, hids2]

/-- Every raw id value is either a truthy provider value or the positional
fallback. -/
theorem rawIdVals_cases : ∀ (items : List JValue) (k : Nat) (vs : List JValue),
    rawIdVals items k = .ok vs →
    ∀ v ∈ vs, pyTruthy v = true ∨ ∃ i, v = .num (Int.ofNat i) := by
  intro items
  induction items with
  | nil => intro k vs h; cases h; intro v hv; simp at hv
  | cons item rest ih =>
    intro k vs h
    unfold rawIdVals at h
    rw [exceptBind_ok] at h
    obtain ⟨v, hv, h⟩ := h
    rw [exceptBind_ok] at h
    obtain ⟨vs2, hvs2, h⟩ := h
    cases h
    intro w hw
    rcases List.mem_cons.mp hw with hw | hw
    · subst hw
      rcases rawIdVal_cases item k w hv with h | h
      · exact Or.inl h
      · exact Or.inr ⟨k, h⟩
    · exact ih (k + 1) vs2 hvs2 w hw

/-- Pair each element with its position, starting at `k` (the shape in which
the uniqueness hypothesis of the id claim is stated). -/
def tagIdx : Nat → List JValue → List (Nat × JValue)
  | _, [] => []
  | k, v :: vs => (k, v) :: tagIdx (k + 1) vs

theorem tagIdx_map_snd : ∀ (k : Nat) (vs : List JValue),
    (tagIdx k vs).map Prod.snd = vs := by
  intro k vs
  induction vs generalizing k with
  | nil => rfl
  | cons v vs ih => simp [tagIdx, ih]

theorem tagIdx_fst_ge : ∀ (k : Nat) (vs : List JValue) (p : Nat × JValue),
    p ∈ tagIdx k vs → k ≤ p.1 := by
  intro k vs
  induction vs generalizing k with
  | nil => intro p hp; simp [tagIdx] at hp
  | cons v vs ih =>
    intro p hp
    rcases List.mem_cons.mp hp with hp | hp
    · subst hp; exact le_rfl
    · exact le_trans (by omega) (ih (k + 1) p hp)

theorem tagIdx_fst_lt : ∀ (k : Nat) (vs : List JValue),
    List.Pairwise (fun p q => p.1 < q.1) (tagIdx k vs) := by
  intro k vs
  induction vs generalizing k with
  | nil => exact List.Pairwise.nil
  | cons v vs ih =>
    refine List.Pairwise.cons ?_ (ih (k + 1))
    intro q hq
    have := tagIdx_fst_ge (k + 1) vs q hq
    omega

/-! ### A closed form for `_format_salary` on records of the documented shape -/

/-- Build a raw salary record with the given optional numeric bounds and
optional `type.salaryType` string, the input shape documented in spec
section 4.1. -/
def mkSalary (mv xv : Option Int) (t : Option String) : JValue :=
  .obj
    ((match mv with | some a => [("minimum", JValue.num a)] | none => []) ++
     (match xv with | some b => [("maximum", JValue.num b)] | none => []) ++
     (match t with
      | some s => [("type", JValue.obj [("salaryType", JValue.str s)])]
      | none => []))

/-- The suffix the spec describes: title-case the salary type and append it
after a space when a non-empty one is present. -/
def salarySuffix (t : Option String) : String :=
  match t with
  | none => ""
  | some s => if s.isEmpty then "" else " " ++ titleStr s

/-- The range-or-single-value core that the code actually computes: the
range form requires both bounds present, both non-zero (truthiness!) and
distinct; otherwise the code renders `minimum` when present else
`maximum`. -/
def specSalaryCore : Option Int → Option Int → Option String
  | none, none => none
  | some a, some b =>
      if a ≠ 0 ∧ b ≠ 0 ∧ a ≠ b then some ("$" ++ commaFmt a ++ " – $" ++ commaFmt b)
      else some ("$" ++ commaFmt a)
  | some a, none => some ("$" ++ commaFmt a)
  | none, some b => some ("$" ++ commaFmt b)

/-- The full closed form on documented shapes. -/
def specSalary (mv xv : Option Int) (t : Option String) : Option String :=
  (specSalaryCore mv xv).map (fun sr => sr ++ salarySuffix t)

theorem dollar_isEmpty_false (x : String) : ("$" ++ x).isEmpty = false := by
  have hne : ("$" ++ x) ≠ "" := by
    intro h
    have := congrArg String.data h
    rw [String.data_append] at this
    simp at this
  cases hb : ("$" ++ x).isEmpty with
  | false => rfl
  | true => exact absurd ((String.isEmpty_iff _).mp hb) hne

theorem empty_isEmpty : "".isEmpty = true := rfl

/-- `_format_salary` on every record of the documented optional-field shape:
it never raises, and computes `specSalary`. -/
theorem formatSalary_mk (mv xv : Option Int) (t : Option String) :
    formatSalary (mkSalary mv xv t) = .ok (specSalary mv xv t) := by
  cases mv with
  | none =>
    cases xv with
    | none =>
      cases t with
      | none => rfl
      | some s => rfl
    | some b =>
      cases t with
      | none =>
        by_cases hb : b = 0 <;>
          simp_all [formatSalary, formatSalaryCore, mkSalary, specSalary, specSalaryCore, salarySuffix,
            pyTruthy, pyDictGet, jlookup, pyIsNone, pyEq, pyNumVal, fmtNum, pyTitle,
            Bind.bind, Except.bind, pure, Pure.pure, Except.pure, bne,
            dollar_isEmpty_false, empty_isEmpty, String.append_assoc]
      | some s =>
        by_cases hb : b = 0 <;> by_cases hs : s.isEmpty <;>
          simp_all [formatSalary, formatSalaryCore, mkSalary, specSalary, specSalaryCore, salarySuffix,
            pyTruthy, pyDictGet, jlookup, pyIsNone, pyEq, pyNumVal, fmtNum, pyTitle,
            Bind.bind, Except.bind, pure, Pure.pure, Except.pure, bne,
            dollar_isEmpty_false, empty_isEmpty, String.append_assoc]
  | some a =>
    cases xv with
    | none =>
      cases t with
      | none =>
        by_cases ha : a = 0 <;>
          simp_all [formatSalary, formatSalaryCore, mkSalary, specSalary, specSalaryCore, salarySuffix,
            pyTruthy, pyDictGet, jlookup, pyIsNone, pyEq, pyNumVal, fmtNum, pyTitle,
            Bind.bind, Except.bind, pure, Pure.pure, Except.pure, bne,
            dollar_isEmpty_false, empty_isEmpty, String.append_assoc]
      | some s =>
        by_cases ha : a = 0 <;> by_cases hs : s.isEmpty <;>
          simp_all [formatSalary, formatSalaryCore, mkSalary, specSalary, specSalaryCore, salarySuffix,
            pyTruthy, pyDictGet, jlookup, pyIsNone, pyEq, pyNumVal, fmtNum, pyTitle,
            Bind.bind, Except.bind, pure, Pure.pure, Except.pure, bne,
            dollar_isEmpty_false, empty_isEmpty, String.append_assoc]
    | some b =>
      cases t with
      | none =>
        by_cases ha : a = 0 <;> by_cases hb : b = 0 <;> by_cases hab : a = b <;>
          simp_all [formatSalary, formatSalaryCore, mkSalary, specSalary, specSalaryCore, salarySuffix,
            pyTruthy, pyDictGet, jlookup, pyIsNone, pyEq, pyNumVal, fmtNum, pyTitle,
            Bind.bind, Except.bind, pure, Pure.pure, Except.pure, bne,
            dollar_isEmpty_false, empty_isEmpty, String.append_assoc]
      | some s =>
        by_cases ha : a = 0 <;> by_cases hb : b = 0 <;> by_cases hab : a = b <;>
          by_cases hs : s.isEmpty <;>
          simp_all [formatSalary, formatSalaryCore, mkSalary, specSalary, specSalaryCore, salarySuffix,
            pyTruthy, pyDictGet, jlookup, pyIsNone, pyEq, pyNumVal, fmtNum, pyTitle,
            Bind.bind, Except.bind, pure, Pure.pure, Except.pure, bne,
            dollar_isEmpty_false, empty_isEmpty, String.append_assoc]

/-! ### `_format_salary` and the normalizer succeed on documented shapes -/

/-- A bound value as extracted (`.get` plus `None` default): `null`, a
number, or a bool. -/
def wfBoundV : JValue → Bool
  | .null => true
  | .num _ => true
  | .bool _ => true
  | _ => false

theorem wfBound_getD (o : Option JValue) (h : wfBound o = true) :
    wfBoundV (o.getD .null) = true := by
  match o, h with
  | none, _ => rfl
  | some .null, _ => rfl
  | some (.num _), _ => rfl
  | some (.bool _), _ => rfl

/-- A `type` value as extracted (default `{}`): an object whose
`salaryType`, if any, is `null` or a string. -/
def wfTypeV : JValue → Bool
  | .obj tfs =>
      match jlookup tfs "salaryType" with
      | none => true
      | some .null => true
      | some (.str _) => true
      | _ => false
  | _ => false

theorem wfTypeField_getD (o : Option JValue) (h : wfTypeField o = true) :
    wfTypeV (o.getD (.obj [])) = true := by
  match o with
  | none => rfl
  | some v =>
    match v with
    | .obj tfs => exact h
    | .null => exact absurd h (by simp [wfTypeField])
    | .bool b => exact absurd h (by simp [wfTypeField])
    | .num n => exact absurd h (by simp [wfTypeField])
    | .str s => exact absurd h (by simp [wfTypeField])
    | .arr xs => exact absurd h (by simp [wfTypeField])

theorem fmtNum_ok (v : JValue) (h : wfBoundV v = true) (hv : v ≠ .null) :
    ∃ s, fmtNum v = .ok s := by
  match v, h with
  | .num n, _ => exact ⟨commaFmt n, rfl⟩
  | .bool b, _ => exact ⟨commaFmt (if b then 1 else 0), rfl⟩
  | .null, _ => exact absurd rfl hv

theorem formatSalaryCore_ok (mn mx tv : JValue) (h1 : wfBoundV mn = true)
    (h2 : wfBoundV mx = true) (h3 : wfTypeV tv = true) :
    ∃ v, formatSalaryCore mn mx tv = .ok v := by
  match tv, h3 with
  | .null, h3 => exact absurd h3 (by simp [wfTypeV])
  | .bool b, h3 => exact absurd h3 (by simp [wfTypeV])
  | .num n, h3 => exact absurd h3 (by simp [wfTypeV])
  | .str s, h3 => exact absurd h3 (by simp [wfTypeV])
  | .arr xs, h3 => exact absurd h3 (by simp [wfTypeV])
  | .obj tfs, h3 =>
  have hst : ∃ w, pyDictGet (.obj tfs) "salaryType" (.str "") = .ok w ∧
      (w = .null ∨ ∃ s, w = .str s) := by
    refine ⟨(jlookup tfs "salaryType").getD (.str ""), rfl, ?_⟩
    revert h3
    simp only [wfTypeV]
    match jlookup tfs "salaryType" with
    | none => exact fun _ => Or.inr ⟨"", rfl⟩
    | some .null => exact fun _ => Or.inl rfl
    | some (.str s) => exact fun _ => Or.inr ⟨s, rfl⟩
    | some (.bool b) => exact fun h => absurd h (by simp)
    | some (.num n) => exact fun h => absurd h (by simp)
    | some (.arr xs) => exact fun h => absurd h (by simp)
    | some (.obj o) => exact fun h => absurd h (by simp)
  obtain ⟨w, hw, hwshape⟩ := hst
  have hsufOk : ∀ sr : String, ∃ v,
      (if sr.isEmpty = true then (pure none : Except PyErr (Option String))
       else if pyTruthy w = true then do
         let t ← pyTitle w
         pure (some (sr ++ " " ++ t))
       else pure (some sr)) = .ok v := by
    intro sr
    by_cases hsr : sr.isEmpty = true
    · exact ⟨none, by simp [hsr, exceptPure_eq]⟩
    · by_cases htw : pyTruthy w = true
      · rcases hwshape with rfl | ⟨s, rfl⟩
        · simp [pyTruthy] at htw
        · exact ⟨some (sr ++ " " ++ titleStr s),
            by simp [hsr, htw, pyTitle, Bind.bind, Except.bind, exceptPure_eq]⟩
      · exact ⟨some sr, by simp [hsr, htw, exceptPure_eq]⟩
  unfold formatSalaryCore
  rw [hw]
  by_cases hboth : (pyIsNone mn && pyIsNone mx) = true
  · exact ⟨none, by simp [hboth, Bind.bind, Except.bind, exceptPure_eq]⟩
  · by_cases hcond : (pyTruthy mn && pyTruthy mx && !pyEq mn mx) = true
    · have hmn : mn ≠ .null := by
        intro h; subst h; simp [pyTruthy] at hcond
      have hmx : mx ≠ .null := by
        intro h; subst h; simp [pyTruthy] at hcond
      obtain ⟨a, hafmt⟩ := fmtNum_ok mn h1 hmn
      obtain ⟨b, hbfmt⟩ := fmtNum_ok mx h2 hmx
      obtain ⟨v, hv⟩ := hsufOk ("$" ++ a ++ " – $" ++ b)
      refine ⟨v, ?_⟩
      simp only [Bind.bind, Except.bind, hboth, Bool.false_eq_true, if_false, hcond,
        if_true, hafmt, hbfmt, exceptPure_eq]
      exact hv
    · match hmnv : mn, h1 with
      | .str s, h1 => exact absurd h1 (by simp [wfBoundV])
      | .arr xs, h1 => exact absurd h1 (by simp [wfBoundV])
      | .obj o, h1 => exact absurd h1 (by simp [wfBoundV])
      | .null, _ =>
        have hmxne : mx ≠ .null := by
          intro h; subst h; simp [pyIsNone] at hboth
        obtain ⟨b, hbfmt⟩ := fmtNum_ok mx h2 hmxne
        obtain ⟨v, hv⟩ := hsufOk ("$" ++ b)
        refine ⟨v, ?_⟩
        simp only [Bind.bind, Except.bind, hboth, Bool.false_eq_true, if_false, hcond,
          hbfmt, exceptPure_eq]
        rcases hmx2 : mx with _ | b2 | n2 | s2 | xs2 | fs2 <;>
          simp_all [fmtNum, Bind.bind, Except.bind, exceptPure_eq]
      | .num n, _ =>
        obtain ⟨v, hv⟩ := hsufOk ("$" ++ commaFmt n)
        exact ⟨v, by
          simp only [Bind.bind, Except.bind, hboth, Bool.false_eq_true, if_false, hcond,
            fmtNum, exceptPure_eq]
          exact hv⟩
      | .bool b, _ =>
        obtain ⟨v, hv⟩ := hsufOk ("$" ++ commaFmt (if b then 1 else 0))
        exact ⟨v, by
          simp only [Bind.bind, Except.bind, hboth, Bool.false_eq_true, if_false, hcond,
            fmtNum, exceptPure_eq]
          exact hv⟩

/-- `_format_salary` never raises on records of the documented shape. -/
theorem formatSalary_ok_of_wf (raw : JValue) (h : wfSalary raw = true) :
    ∃ v, formatSalary raw = .ok v := by
  by_cases htr : pyTruthy raw = true
  · cases raw with
    | null => simp [pyTruthy] at htr
    | bool b => simp [wfSalary, htr] at h
    | num n => simp [wfSalary, htr] at h
    | str s => simp [wfSalary, htr] at h
    | arr xs => simp [wfSalary, htr] at h
    | obj fs =>
      have h2 : wfBound (jlookup fs "minimum") = true ∧
          wfBound (jlookup fs "maximum") = true ∧
          wfTypeField (jlookup fs "type") = true := by
        rw [wfSalary, htr] at h
        simp only [Bool.not_true, Bool.false_or] at h
        simpa [Bool.and_assoc] using h
      obtain ⟨v, hv⟩ := formatSalaryCore_ok ((jlookup fs "minimum").getD .null)
        ((jlookup fs "maximum").getD .null) ((jlookup fs "type").getD (.obj []))
        (wfBound_getD _ h2.1) (wfBound_getD _ h2.2.1) (wfTypeField_getD _ h2.2.2)
      refine ⟨v, ?_⟩
      unfold formatSalary
      simp only [htr, Bool.not_true, Bool.false_eq_true, if_false, pyDictGet,
        Bind.bind, Except.bind]
      exact hv
  · refine ⟨none, ?_⟩
    unfold formatSalary
    simp [htr, exceptPure_eq]

theorem extractNamesList_ok (key : String) :
    ∀ xs : List JValue, (∀ c ∈ xs, pyTruthy c = false ∨ isObj c = true) →
      ∃ ns, extractNamesList key xs = .ok ns := by
  intro xs
  induction xs with
  | nil => exact fun _ => ⟨[], rfl⟩
  | cons c rest ih =>
    intro h
    obtain ⟨ns, hns⟩ := ih (fun d hd => h d (List.mem_cons_of_mem c hd))
    by_cases htr : pyTruthy c = true
    · have hc : isObj c = true := by
        rcases h c (List.mem_cons_self c rest) with hc | hc
        · rw [htr] at hc; exact absurd hc (by simp)
        · exact hc
      match c, hc with
      | .obj cfs, _ =>
        by_cases hg : pyTruthy ((jlookup cfs key).getD .null) = true
        · exact ⟨pyStr ((jlookup cfs key).getD .null) :: ns, by
            simp [extractNamesList, pyDictGet, htr, hg, hns, Bind.bind, Except.bind]⟩
        · exact ⟨ns, by
            simp [extractNamesList, pyDictGet, htr, hg, hns, Bind.bind, Except.bind]⟩
    · exact ⟨ns, by simp [extractNamesList, htr, hns]⟩

theorem extractNames_getD_ok (key : String) (o : Option JValue)
    (h : wfNameList o = true) :
    ∃ ns, extractNames key (o.getD (.arr [])) = .ok ns := by
  match o with
  | none => exact ⟨[], rfl⟩
  | some v =>
    match v, h with
    | .arr xs, h =>
      have h2 : xs.all (fun c => !pyTruthy c || isObj c) = true := h
      have hall : ∀ c ∈ xs, pyTruthy c = false ∨ isObj c = true := by
        intro c hc
        have h3 := List.all_eq_true.mp h2 c hc
        rcases Bool.or_eq_true_iff.mp h3 with h1 | h1
        · left; simpa using h1
        · right; exact h1
      obtain ⟨ns, hns⟩ := extractNamesList_ok key xs hall
      exact ⟨ns, by simp [extractNames, pyIterate, Bind.bind, Except.bind, hns]⟩
    | .null, h => exact absurd h (by simp [wfNameList])
    | .bool b, h => exact absurd h (by simp [wfNameList])
    | .num n, h => exact absurd h (by simp [wfNameList])
    | .str s, h => exact absurd h (by simp [wfNameList])
    | .obj o2, h => exact absurd h (by simp [wfNameList])

theorem objish_pyOr (v : JValue) (h : objish v = true) :
    ∃ w, pyOr v (.obj []) = .obj w := by
  by_cases ht : pyTruthy v = true
  · simp only [objish, ht, Bool.not_true, Bool.false_or] at h
    match v, h with
    | .obj w, _ => exact ⟨w, by simp [pyOr, ht]⟩
  · exact ⟨[], by simp [pyOr, ht]⟩

theorem objish_getD (o : Option JValue) (h : objish (o.getD .null) = true) :
    objish (o.getD (.obj [])) = true := by
  match o with
  | none => rfl
  | some v => exact h

theorem wfAddress_pyOr (v : JValue) (h : wfAddress v = true) :
    ∃ afs, pyOr v (.obj []) = .obj afs ∧
      wfDistricts ((jlookup afs "districts").getD .null) = true := by
  by_cases ht : pyTruthy v = true
  · simp only [wfAddress, ht, Bool.not_true, Bool.false_or] at h
    match v, h with
    | .obj afs, h => exact ⟨afs, by simp [pyOr, ht], h⟩
  · exact ⟨[], by simp [pyOr, ht], by rfl⟩

theorem primaryDistrictOf_ok (v : JValue) (h : wfDistricts v = true) :
    ∃ pdfs, primaryDistrictOf (pyOr v (.arr [])) = .ok (.obj pdfs) := by
  by_cases ht : pyTruthy v = true
  · simp only [wfDistricts, ht, Bool.not_true, Bool.false_or] at h
    match v, ht, h with
    | .arr (x :: rest), ht, h =>
      match x, h with
      | .obj pdfs, _ =>
        refine ⟨pdfs, ?_⟩
        have hor : pyOr (JValue.arr (JValue.obj pdfs :: rest)) (.arr [])
            = .arr (JValue.obj pdfs :: rest) := by simp [pyOr, ht]
        rw [hor]
        rfl
  · refine ⟨[], ?_⟩
    have hor : pyOr v (.arr []) = .arr [] := by simp [pyOr, ht]
    rw [hor]
    rfl

theorem locationOf_ok (a b : List (String × JValue)) :
    ∃ l, locationOf (.obj a) (.obj b) = .ok l := by
  unfold locationOf
  simp only [pyDictGet, Bind.bind, Except.bind]
  by_cases h1 : pyTruthy ((jlookup a "street").getD .null) = true
  · exact ⟨(jlookup a "street").getD .null, by simp [h1, exceptPure_eq]⟩
  · by_cases h2 : pyTruthy ((jlookup b "location").getD .null) = true
    · exact ⟨(jlookup b "location").getD .null, by simp [h1, h2, exceptPure_eq]⟩
    · exact ⟨(jlookup a "district").getD .null, by simp [h1, h2, exceptPure_eq]⟩

theorem rawIdValFrom_ok (mfs fs : List (String × JValue)) (idx : Nat) :
    ∃ v, rawIdValFrom (.obj mfs) (.obj fs) idx = .ok v := by
  unfold rawIdValFrom
  simp only [pyDictGet, Bind.bind, Except.bind]
  by_cases h1 : pyTruthy ((jlookup mfs "jobPostId").getD .null) = true
  · exact ⟨(jlookup mfs "jobPostId").getD .null, by simp [h1, exceptPure_eq]⟩
  · by_cases h2 : pyTruthy ((jlookup fs "uuid").getD .null) = true
    · exact ⟨(jlookup fs "uuid").getD .null, by simp [h1, h2, exceptPure_eq]⟩
    · exact ⟨.num (Int.ofNat idx), by simp [h1, h2, exceptPure_eq]⟩

/-- The loop body never raises on a well-formed item. -/
theorem normalizeItem_ok_of_wf (item : JValue) (hwf : wfItem item = true)
    (idx : Nat) : ∃ p, normalizeItem item idx = .ok p := by
  match item, hwf with
  | .obj fs, hwf =>
  rw [wfItem] at hwf
  simp only [Bool.and_eq_true] at hwf
  obtain ⟨⟨⟨⟨⟨⟨hmeta, hpc⟩, haddr⟩, hcats⟩, hemps⟩, hskills⟩, hsal⟩ := hwf
  obtain ⟨mfs, hmos⟩ := objish_pyOr _ (objish_getD _ hmeta)
  obtain ⟨pcfs, hpcs⟩ := objish_pyOr _ hpc
  obtain ⟨afs, haos, hdist⟩ := wfAddress_pyOr _ haddr
  obtain ⟨cats, hcatsok⟩ := extractNames_getD_ok "category" _ hcats
  obtain ⟨emps, hempok⟩ := extractNames_getD_ok "employmentType" _ hemps
  obtain ⟨sks, hskok⟩ := extractNames_getD_ok "skill" _ hskills
  obtain ⟨pdfs, hpdok⟩ := primaryDistrictOf_ok _ hdist
  obtain ⟨l, hlok⟩ := locationOf_ok afs pdfs
  obtain ⟨sv, hsok⟩ := formatSalary_ok_of_wf _ hsal
  obtain ⟨iv, hiok⟩ := rawIdValFrom_ok mfs fs idx
  have hgoal : normalizeItem (.obj fs) idx = .ok
      { id := pyStr iv,
        title := pyStr (pyOr ((jlookup fs "title").getD .null) (.str "Untitled role")),
        company := (jlookup pcfs "name").getD .null,
        url := (jlookup mfs "jobDetailsUrl").getD .null,
        salary := sv, location := l,
        region := (jlookup pdfs "region").getD .null,
        categories := cats, employment_types := emps, skills := sks,
        updated_at := (jlookup mfs "updatedAt").getD .null,
        posted_at := (jlookup mfs "newPostingDate").getD .null,
        score := (jlookup fs "score").getD .null,
        lat := (jlookup afs "lat").getD .null,
        lng := (jlookup afs "lng").getD .null } := by
    unfold normalizeItem
    simp only [pyDictGet, Bind.bind, Except.bind, hmos, hpcs, haos, hcatsok,
      hempok, hskok, hpdok, hlok, hsok, hiok, exceptPure_eq]
  exact ⟨_, hgoal⟩

/-- The whole loop never raises on a list of well-formed items. -/
theorem normalizeAll_ok_of_wf :
    ∀ (items : List JValue), (∀ item ∈ items, wfItem item = true) →
      ∀ k, ∃ ps, normalizeAll items k = .ok ps := by
  intro items
  induction items with
  | nil => exact fun _ k => ⟨[], rfl⟩
  | cons item rest ih =>
    intro h k
    obtain ⟨p, hp⟩ := normalizeItem_ok_of_wf item (h item (List.mem_cons_self item rest)) k
    obtain ⟨ps, hps⟩ := ih (fun d hd => h d (List.mem_cons_of_mem item hd)) (k + 1)
    exact ⟨p :: ps, by simp [normalizeAll, hp, hps, Bind.bind, Except.bind]⟩

theorem pyInt_ok_of_wfTotal (o : Option JValue) (h : wfTotal o = true) (len : Nat) :
    ∃ n, pyInt (pyOr (o.getD .null) (.num (Int.ofNat len))) = .ok n := by
  match o with
  | none => exact ⟨Int.ofNat len, by simp [pyOr, pyTruthy, pyInt]⟩
  | some v =>
    by_cases ht : pyTruthy v = true
    · simp only [wfTotal, ht, Bool.not_true, Bool.false_or] at h
      match v, h with
      | .num n, _ => exact ⟨n, by simp [pyOr, ht, pyInt]⟩
      | .bool b, _ => exact ⟨if b then 1 else 0, by simp [pyOr, ht, pyInt]⟩
      | .str s, h =>
        obtain ⟨n, hn⟩ := Option.isSome_iff_exists.mp h
        exact ⟨n, by simp [pyOr, ht, pyInt, hn]⟩
    · exact ⟨Int.ofNat len, by simp [pyOr, ht, pyInt]⟩

/-- The whole response processing never raises on a well-formed body. -/
theorem requestJobsPure_ok_of_wf (st : Option String) (data : JValue)
    (h : wfData data = true) : ∃ r, requestJobsPure st data = .ok r := by
  match data, h with
  | .obj fs, h =>
  rw [wfData] at h
  simp only [Bool.and_eq_true] at h
  obtain ⟨hres, htot⟩ := h
  have hitems : ∃ items, pyIterate (pyOr ((jlookup fs "results").getD (.arr []))
      (.arr [])) = .ok items ∧ ∀ item ∈ items, wfItem item = true := by
    match hlk : jlookup fs "results" with
    | none => exact ⟨[], by simp [pyOr, pyTruthy, pyIterate], by simp⟩
    | some v =>
      rw [hlk] at hres
      by_cases ht : pyTruthy v = true
      · simp only [ht, Bool.not_true, Bool.false_or] at hres
        match v, hres with
        | .arr xs, hres =>
          exact ⟨xs, by simp [pyOr, ht, pyIterate],
            fun item hi => (List.all_eq_true.mp hres) item hi⟩
      · refine ⟨[], ?_, by simp⟩
        have hor : pyOr ((some v).getD (.arr [])) (.arr []) = .arr [] := by
          simp [pyOr, ht]
        rw [hor]
        rfl
  obtain ⟨items, hit, hwfall⟩ := hitems
  obtain ⟨ps, hps⟩ := normalizeAll_ok_of_wf items hwfall 0
  obtain ⟨n, hn⟩ := pyInt_ok_of_wfTotal (jlookup fs "total") htot ps.length
  have hgoal : requestJobsPure st (.obj fs) = .ok
      { search_term := resolveTerm st, total := n, jobs := ps } := by
    unfold requestJobsPure
    simp only [pyDictGet, Bind.bind, Except.bind, hit, hps, hn, exceptPure_eq]
  exact ⟨_, hgoal⟩

/-- Inversion of a successful `requestJobsPure` run. -/
theorem requestJobsPure_ok_elim (st : Option String) (data : JValue)
    (r : JobSearchResult) (h : requestJobsPure st data = .ok r) :
    ∃ fs items ps n, data = .obj fs ∧
      pyIterate (pyOr ((jlookup fs "results").getD (.arr [])) (.arr [])) = .ok items ∧
      normalizeAll items 0 = .ok ps ∧
      pyInt (pyOr ((jlookup fs "total").getD .null) (.num (Int.ofNat ps.length))) = .ok n ∧
      r = { search_term := resolveTerm st, total := n, jobs := ps } := by
  cases data with
  | obj fs =>
    unfold requestJobsPure at h
    simp only [exceptBind_ok, pyDictGet] at h
    obtain ⟨rv, hrv, items, hitems, ps, hps, tv, htv, n, hn, hfin⟩ := h
    cases hrv
    cases htv
    cases hfin
    exact ⟨fs, items, ps, n, rfl, hitems, hps, hn, rfl⟩
  | null => exact absurd h (by simp [requestJobsPure, pyDictGet, Bind.bind, Except.bind])
  | bool b => exact absurd h (by simp [requestJobsPure, pyDictGet, Bind.bind, Except.bind])
  | num n => exact absurd h (by simp [requestJobsPure, pyDictGet, Bind.bind, Except.bind])
  | str s => exact absurd h (by simp [requestJobsPure, pyDictGet, Bind.bind, Except.bind])
  | arr xs => exact absurd h (by simp [requestJobsPure, pyDictGet, Bind.bind, Except.bind])

/-! ### The claims -/

/-- A posting normalized from an item with no usable fields: only the id
differs. -/
def samplePosting (i : String) : JobPosting :=
  { id := i, title := "Untitled role", company := .null, url := .null,
    salary := none, location := .null, region := .null, categories := [],
    employment_types := [], skills := [], updated_at := .null,
    posted_at := .null, score := .null, lat := .null, lng := .null }

/-- C1 counterexample: with `minimum=0`, `maximum=5000` both present as
numbers and different, `_format_salary` renders the single value `"$0"`
(the `if minimum and maximum` guard tests truthiness, and `0` is falsy),
not the range `"$0 – $5,000"` the claim requires. -/
theorem C1_counterexample :
    formatSalary (mkSalary (some 0) (some 5000) none) = .ok (some "$0") ∧
    ("$0" : String) ≠ "$0 – $5,000" := by
  exact ⟨by rfl, by decide⟩

/-- C1 (amended): for every raw salary record whose minimum and maximum are
present, non-null, NON-ZERO numbers that differ, `_format_salary` returns
"$<min with thousands separators, 0 decimals> – $<max formatted the same
way>" (plus the usual type suffix); in particular minimum=3000,
maximum=5000 with no type yields "$3,000 – $5,000". -/
theorem C1_range_amended (a b : Int) (t : Option String)
    (ha : a ≠ 0) (hb : b ≠ 0) (hab : a ≠ b) :
    formatSalary (mkSalary (some a) (some b) t) =
      .ok (some (("$" ++ commaFmt a ++ " – $" ++ commaFmt b) ++ salarySuffix t)) := by
  rw [formatSalary_mk]
  simp [specSalary, specSalaryCore, ha, hb, hab]

theorem C1_range_amended_witness :
    (3000 : Int) ≠ 0 ∧ (5000 : Int) ≠ 0 ∧ (3000 : Int) ≠ (5000 : Int) ∧
    formatSalary (mkSalary (some 3000) (some 5000) none) =
      .ok (some "$3,000 – $5,000") := by
  refine ⟨by decide, by decide, by decide, ?_⟩
  rw [C1_range_amended 3000 5000 none (by decide) (by decide) (by decide)]
  rfl

/-- C2 counterexample: a raw salary record whose nested `type` is `null`
makes `_format_salary` raise `AttributeError` (`raw.get("type", {})` keeps
the explicit `null`, and `None.get` does not exist), so the formatter does
not absorb every malformed shape. -/
theorem C2_counterexample :
    formatSalary (.obj [("type", JValue.null)]) = .error .attributeError := by rfl

/-- C2 (amended): `_format_salary`, the posting normalizer and the response
processing never raise on provider data whose fields, when present, have
the spec's documented shapes (`wfSalary` / `wfItem` / `wfData`); a `null`
nested object in `type`, `categories`, `employmentTypes`, `skills` or a
non-numeric `minimum`/`maximum` does raise and is not absorbed. -/
theorem C2_no_raise_amended (raw item data : JValue) (idx : Nat)
    (st : Option String) :
    (wfSalary raw = true → ∃ v, formatSalary raw = .ok v) ∧
    (wfItem item = true → ∃ p, normalizeItem item idx = .ok p) ∧
    (wfData data = true → ∃ r, requestJobsPure st data = .ok r) :=
  ⟨fun h => formatSalary_ok_of_wf raw h,
   fun h => normalizeItem_ok_of_wf item h idx,
   fun h => requestJobsPure_ok_of_wf st data h⟩

theorem C2_no_raise_amended_witness :
    (∃ v, formatSalary (.obj [("minimum", JValue.num 3000)]) = .ok v) ∧
    (∃ p, normalizeItem (.obj [("title", JValue.str "Dev")]) 0 = .ok p) ∧
    (∃ r, requestJobsPure none (.obj [("results", JValue.arr [JValue.obj []])]) = .ok r) :=
  ⟨(C2_no_raise_amended (.obj [("minimum", JValue.num 3000)])
      (.obj [("title", JValue.str "Dev")])
      (.obj [("results", JValue.arr [JValue.obj []])]) 0 none).1 (by decide),
   (C2_no_raise_amended (.obj [("minimum", JValue.num 3000)])
      (.obj [("title", JValue.str "Dev")])
      (.obj [("results", JValue.arr [JValue.obj []])]) 0 none).2.1 (by decide),
   (C2_no_raise_amended (.obj [("minimum", JValue.num 3000)])
      (.obj [("title", JValue.str "Dev")])
      (.obj [("results", JValue.arr [JValue.obj []])]) 0 none).2.2 (by decide)⟩

/-- C5: for every raw salary record in which only one of minimum/maximum is
present (as a number), or both are present and equal, `_format_salary`
renders the single value (preferring minimum) as "$<value>" with thousands
separators and 0 decimals, appending a space plus the title-cased
salary-type string when a non-empty one is present; in particular
minimum=maximum=1000 with type "Monthly" yields "$1,000 Monthly". -/
theorem C5_single_value (mv xv : Option Int) (t : Option String)
    (h : (mv ≠ none ∧ xv = none) ∨ (mv = none ∧ xv ≠ none) ∨
      (mv ≠ none ∧ mv = xv)) :
    formatSalary (mkSalary mv xv t) =
      .ok (some (("$" ++ commaFmt (mv.getD (xv.getD 0))) ++ salarySuffix t)) := by
  rw [formatSalary_mk]
  rcases h with ⟨hm, hx⟩ | ⟨hm, hx⟩ | ⟨hm, hx⟩
  · obtain ⟨a, rfl⟩ := Option.ne_none_iff_exists'.mp hm
    subst hx
    simp [specSalary, specSalaryCore]
  · subst hm
    obtain ⟨b, rfl⟩ := Option.ne_none_iff_exists'.mp hx
    simp [specSalary, specSalaryCore]
  · obtain ⟨a, rfl⟩ := Option.ne_none_iff_exists'.mp hm
    subst hx
    simp [specSalary, specSalaryCore]

theorem C5_single_value_witness :
    ((some 1000 : Option Int) ≠ none ∧ (some 1000 : Option Int) = some 1000) ∧
    formatSalary (mkSalary (some 1000) (some 1000) (some "Monthly")) =
      .ok (some "$1,000 Monthly") := by
  refine ⟨⟨by decide, rfl⟩, ?_⟩
  rw [C5_single_value (some 1000) (some 1000) (some "Monthly")
    (Or.inr (Or.inr ⟨by decide, rfl⟩))]
  rfl

/-- C9: for every raw salary record that is absent (`None`) or empty, or of
the documented shape with both minimum and maximum absent (or null),
`_format_salary` returns an absent result. -/
theorem C9_absent (raw : JValue) (hwf : wfSalary raw = true)
    (habs : pyTruthy raw = false ∨
      ∃ fs, raw = .obj fs ∧ (jlookup fs "minimum").getD .null = .null ∧
        (jlookup fs "maximum").getD .null = .null) :
    formatSalary raw = .ok none := by
  rcases habs with hf | ⟨fs, rfl, hmin, hmax⟩
  · unfold formatSalary
    simp [hf, exceptPure_eq]
  · by_cases htr : pyTruthy (.obj fs) = true
    · have h2 : wfTypeField (jlookup fs "type") = true := by
        rw [wfSalary, htr] at hwf
        simp only [Bool.not_true, Bool.false_or, Bool.and_eq_true] at hwf
        exact hwf.2
      have h3 := wfTypeField_getD _ h2
      unfold formatSalary
      simp only [htr, Bool.not_true, Bool.false_eq_true, if_false, pyDictGet,
        Bind.bind, Except.bind, hmin, hmax]
      cases hv : (jlookup fs "type").getD (.obj []) with
      | obj tfs =>
        unfold formatSalaryCore
        simp [pyDictGet, pyIsNone, Bind.bind, Except.bind, exceptPure_eq]
      | null => rw [hv] at h3; simp [wfTypeV] at h3
      | bool b => rw [hv] at h3; simp [wfTypeV] at h3
      | num n => rw [hv] at h3; simp [wfTypeV] at h3
      | str s => rw [hv] at h3; simp [wfTypeV] at h3
      | arr xs => rw [hv] at h3; simp [wfTypeV] at h3
    · unfold formatSalary
      simp [htr, exceptPure_eq]

theorem C9_absent_witness :
    wfSalary (JValue.obj [("maximum", JValue.null),
      ("type", JValue.obj [("salaryType", JValue.str "Monthly")])]) = true ∧
    formatSalary (JValue.obj [("maximum", JValue.null),
      ("type", JValue.obj [("salaryType", JValue.str "Monthly")])]) = .ok none :=
  ⟨by decide,
   C9_absent _ (by decide) (Or.inr ⟨_, rfl, rfl, rfl⟩)⟩

/-- C6 counterexample: for a non-empty result the code's summary ends with
"results in the carousel.", not the claim's "results.". -/
theorem C6_counterexample :
    textSummary { search_term := "x", total := 1, jobs := [samplePosting "0"] } ≠
      "Found 1 jobs for 'x'. Showing top 1 results." := by decide

/-- C6 (amended): for every successful search with a non-empty result list
the summary is exactly "Found N jobs for '<term>'. Showing top M results in
the carousel." with N the total rendered with thousands separators and M
the number of returned jobs; with no jobs it is exactly "No jobs found for
'<term>'. Try a broader search.". -/
theorem C6_summary_amended (r : JobSearchResult) :
    (r.jobs ≠ [] → textSummary r =
      "Found " ++ commaFmt r.total ++ " jobs for '" ++ r.search_term ++
      "'. Showing top " ++ natToDecimal r.jobs.length ++
      " results in the carousel.") ∧
    (r.jobs = [] → textSummary r =
      "No jobs found for '" ++ r.search_term ++ "'. Try a broader search.") := by
  constructor
  · intro h
    unfold textSummary
    rw [if_pos]
    simp only [Bool.not_eq_true']
    exact (Bool.not_eq_true _).symm ▸ (by simpa using h)
  · intro h
    unfold textSummary
    simp [h]

theorem C6_summary_amended_witness :
    textSummary { search_term := "x", total := 1500, jobs := [samplePosting "0"] } =
      "Found 1,500 jobs for 'x'. Showing top 1 results in the carousel." ∧
    textSummary { search_term := "y", total := 0, jobs := [] } =
      "No jobs found for 'y'. Try a broader search." := by
  constructor
  · rw [(C6_summary_amended _).1 (by simp)]
    decide
  · rw [(C6_summary_amended _).2 rfl]
    rfl

/-- C10: every tool call whose name differs from "mycf-job-list" gets the
`isError=True` reply "Unknown tool: <name>" before the arguments are
validated and before any network request (the `proceed` outcome is the only
one that leads to `_request_jobs`). -/
theorem C10_unknown_tool (name : String) (args : Option (List (String × JValue)))
    (h : name ≠ TOOL_NAME) :
    callToolStage name args = .unknownTool ("Unknown tool: " ++ name) := by
  unfold callToolStage
  rw [if_pos h]

theorem C10_unknown_tool_witness :
    callToolStage "other-tool" (some [("limit", JValue.num 999)]) =
      .unknownTool ("Unknown tool: " ++ "other-tool") :=
  C10_unknown_tool "other-tool" (some [("limit", JValue.num 999)]) (by decide)

/-- C3 counterexample: with one result item and a provider-reported
`total` of 0 — present, not absent — the returned total is the posting
count 1, not the provider value: `int(data.get("total") or len(postings))`
falls back on every falsy total, not only on an absent one. -/
theorem C3_counterexample :
    (requestJobsPure (some "x")
      (.obj [("results", JValue.arr [JValue.obj []]), ("total", JValue.num 0)])).map
      (fun r => (r.total, r.jobs.length)) = .ok ((1 : Int), 1) ∧ (1 : Int) ≠ 0 := by
  exact ⟨by rfl, by decide⟩

/-- C3 (amended): on a successful run the returned total equals the
provider-reported total whenever that field is present and truthy (a
non-zero number), and equals the number of normalized postings when the
field is absent, null, or the (falsy) number 0; a response with 3 items and
total=150 yields total=150 with 3 jobs in provider order, and an empty
results list with no total yields total=0. -/
theorem C3_total_amended (st : Option String) (fs : List (String × JValue))
    (r : JobSearchResult) (h : requestJobsPure st (.obj fs) = .ok r) :
    (∀ t : Int, jlookup fs "total" = some (.num t) → t ≠ 0 → r.total = t) ∧
    ((jlookup fs "total" = none ∨ jlookup fs "total" = some .null ∨
        jlookup fs "total" = some (.num 0)) →
      r.total = Int.ofNat r.jobs.length) := by
  obtain ⟨fs2, items, ps, n, hfs, hitems, hps, hn, hr⟩ :=
    requestJobsPure_ok_elim st (.obj fs) r h
  injection hfs with he
  subst he
  subst hr
  constructor
  · intro t hlk ht
    rw [hlk] at hn
    have : pyOr ((some (JValue.num t)).getD .null) (.num (Int.ofNat ps.length))
        = .num t := by
      simp [pyOr, pyTruthy, bne, ht]
    rw [this] at hn
    have : (Except.ok t : Except PyErr Int) = .ok n := hn
    injection this with h2
    exact h2.symm
  · intro hlk
    have hfalsy : pyOr ((jlookup fs "total").getD .null) (.num (Int.ofNat ps.length))
        = .num (Int.ofNat ps.length) := by
      rcases hlk with hlk | hlk | hlk <;> rw [hlk] <;> simp [pyOr, pyTruthy]
    rw [hfalsy] at hn
    have : (Except.ok (Int.ofNat ps.length) : Except PyErr Int) = .ok n := hn
    injection this with h2
    exact h2.symm

theorem C3_total_amended_witness :
    (150 : Int) ≠ 0 ∧
    ({ search_term := "software engineer", total := 150, jobs := [] } :
      JobSearchResult).total = 150 :=
  ⟨by decide,
   (C3_total_amended none [("results", JValue.arr []), ("total", JValue.num 150)]
     { search_term := "software engineer", total := 150, jobs := [] }
     (by rfl)).1 150 (by rfl) (by decide)⟩

/-- C4 counterexample: two items, the first with no provider id (fallback
index 0, id "0") and the second with provider job-post id "0".  The
provider-supplied identifiers ("0", appearing once) do not collide with
each other, yet the two resulting ids are both "0". -/
theorem C4_counterexample :
    (normalizeAll [JValue.obj [],
      JValue.obj [("metadata", JValue.obj [("jobPostId", JValue.str "0")])]] 0).map
      (List.map JobPosting.id) = .ok ["0", "0"] := by rfl

/-- C4 (amended): every id in one normalized result set is a non-empty
string, and all ids are pairwise distinct provided the rendered raw id
values do not collide with each other or with the decimal strings of the
fallback positions (for two positions whose ids both come from the
positional fallback, distinctness is automatic). -/
theorem C4_ids_amended (items : List JValue) (ps : List JobPosting)
    (vs : List JValue) (h : normalizeAll items 0 = .ok ps)
    (hv : rawIdVals items 0 = .ok vs)
    (hdist : List.Pairwise
      (fun p q => (pyStr p.2 ≠ natToDecimal p.1 ∨ pyStr q.2 ≠ natToDecimal q.1) →
        pyStr p.2 ≠ pyStr q.2) (tagIdx 0 vs)) :
    (∀ p ∈ ps, p.id ≠ "") ∧ List.Pairwise (fun a b => a.id ≠ b.id) ps := by
  obtain ⟨vs2, hvs2, hmap⟩ := normalizeAll_ids items 0 ps h
  have hveq : vs2 = vs := by
    rw [hv] at hvs2
    injection hvs2 with he
    exact he.symm
  subst hveq
  constructor
  · intro p hp
    have hpid : p.id ∈ ps.map JobPosting.id := List.mem_map_of_mem JobPosting.id hp
    rw [hmap] at hpid
    obtain ⟨v, hvmem, hpv⟩ := List.mem_map.mp hpid
    rcases rawIdVals_cases items 0 vs2 hvs2 v hvmem with htr | ⟨i, rfl⟩
    · exact hpv ▸ pyStr_ne_empty v htr
    · rw [← hpv, pyStr_num_ofNat]
      exact natToDecimal_ne_empty i
  · have h1 : List.Pairwise (fun p q : Nat × JValue => pyStr p.2 ≠ pyStr q.2)
        (tagIdx 0 vs2) := by
      refine ((hdist.and (tagIdx_fst_lt 0 vs2)).imp ?_)
      rintro p q ⟨hD, hlt⟩
      by_cases hp : pyStr p.2 = natToDecimal p.1
      · by_cases hq : pyStr q.2 = natToDecimal q.1
        · rw [hp, hq]
          intro hEq
          exact absurd (natToDecimal_inj _ _ hEq) (Nat.ne_of_lt hlt)
        · exact hD (Or.inr hq)
      · exact hD (Or.inl hp)
    have h2 : List.Pairwise Ne (vs2.map pyStr) := by
      have hrw : vs2.map pyStr = (tagIdx 0 vs2).map (fun p => pyStr p.2) := by
        calc vs2.map pyStr = ((tagIdx 0 vs2).map Prod.snd).map pyStr := by
              rw [tagIdx_map_snd]
        _ = (tagIdx 0 vs2).map (fun p => pyStr p.2) := by
              rw [List.map_map]
              rfl
      rw [hrw, List.pairwise_map]
      exact h1
    rw [← hmap] at h2
    exact List.pairwise_map.mp h2

theorem C4_ids_amended_witness :
    (∀ p ∈ [samplePosting "0", samplePosting "abc"], p.id ≠ "") ∧
    List.Pairwise (fun a b : JobPosting => a.id ≠ b.id)
      [samplePosting "0", samplePosting "abc"] :=
  C4_ids_amended [JValue.obj [], JValue.obj [("uuid", JValue.str "abc")]]
    [samplePosting "0", samplePosting "abc"]
    [JValue.num 0, JValue.str "abc"]
    (by rfl) (by rfl)
    (by
      refine List.Pairwise.cons ?_ (List.Pairwise.cons ?_ List.Pairwise.nil)
      · intro q hq
        rw [show q = ((1 : Nat), JValue.str "abc") from by
          simpa [tagIdx] using hq]
        intro hor
        decide
      · intro q hq
        exact absurd hq (List.not_mem_nil q))

/-- C8: the effective search term is the trimmed input when non-empty,
and the default "software engineer" when the validated `searchTerm` is
null, empty or whitespace-only; an absent argument already defaults to
"software engineer" at validation; and the result echoes the resolved term
as `search_term`. -/
theorem C8_effective_term :
    (∀ s : String, resolveTerm (some s) =
      (if (pyStrip s).isEmpty then "software engineer" else pyStrip s)) ∧
    resolveTerm none = "software engineer" ∧
    (∀ args payload, modelValidate args = .ok payload →
      jlookup args "searchTerm" = none → jlookup args "search_term" = none →
      payload.search_term = some "software engineer") ∧
    (∀ st data r, requestJobsPure st data = .ok r →
      r.search_term = resolveTerm st) := by
  refine ⟨?_, rfl, ?_, ?_⟩
  · intro s
    by_cases hs : s.isEmpty = true
    · rw [(String.isEmpty_iff s).mp hs]
      rfl
    · unfold resolveTerm
      simp [hs]
  · intro args payload hok h1 h2
    unfold modelValidate at hok
    rw [h1, h2] at hok
    simp only [validateSearchTerm, errsOf] at hok
    split at hok
    · split at hok
      · next st limit page hst hl hp =>
        have hsteq : st = some "software engineer" := by
          injection hst with he
          exact he.symm
        subst hsteq
        injection hok with h3
        rw [← h3]
      · exact absurd hok (by simp)
    · exact absurd hok (by simp)
  · intro st data r h
    obtain ⟨fs, items, ps, n, hfs, hitems, hps, hn, hr⟩ :=
      requestJobsPure_ok_elim st data r h
    subst hr
    rfl

theorem C8_effective_term_witness :
    resolveTerm (some "  data analyst ") =
      (if (pyStrip "  data analyst ").isEmpty then "software engineer"
       else pyStrip "  data analyst ") ∧
    ({ search_term := some "software engineer", limit := 20, page := 0 } :
        JobSearchInput).search_term = some "software engineer" ∧
    ({ search_term := "software engineer", total := 0, jobs := [] } :
        JobSearchResult).search_term = resolveTerm none :=
  ⟨C8_effective_term.1 "  data analyst ",
   C8_effective_term.2.2.1 []
     { search_term := some "software engineer", limit := 20, page := 0 }
     (by rfl) rfl rfl,
   C8_effective_term.2.2.2 none (.obj [])
     { search_term := "software engineer", total := 0, jobs := [] } (by rfl)⟩

/-! ### C7: input validation -/

/-- An optional string argument of a shape pydantic accepts for
`Optional[str]`. -/
def wfStrOpt : Option JValue → Bool
  | none => true
  | some (.str _) => true
  | some .null => true
  | _ => false

/-- An optional integer argument inside the `ge`/`le` bounds. -/
def wfIntOpt (lo hi : Int) : Option JValue → Bool
  | none => true
  | some (.num n) => decide (lo ≤ n) && decide (n ≤ hi)
  | _ => false

/-- In-bounds, well-typed tool arguments with no unknown key. -/
def wfArgs (args : List (String × JValue)) : Bool :=
  args.all (fun p => knownKeys.contains p.1) &&
    wfStrOpt (jlookup args "searchTerm") &&
    wfStrOpt (jlookup args "search_term") &&
    wfIntOpt 1 50 (jlookup args "limit") &&
    wfIntOpt 0 50 (jlookup args "page")

theorem validateSearchTerm_ok_of_wf (o : Option JValue) (h : wfStrOpt o = true) :
    ∃ st, validateSearchTerm o = .ok st := by
  match o, h with
  | none, _ => exact ⟨some "software engineer", rfl⟩
  | some (.str s), _ => exact ⟨some s, rfl⟩
  | some .null, _ => exact ⟨none, rfl⟩

theorem validateIntArg_ok_of_wf (name : String) (lo hi dflt : Int)
    (o : Option JValue) (h : wfIntOpt lo hi o = true) :
    ∃ n, validateIntArg name lo hi dflt o = .ok n := by
  match o, h with
  | none, _ => exact ⟨dflt, rfl⟩
  | some (.num n), h =>
    have hb : lo ≤ n ∧ n ≤ hi := by
      simp only [wfIntOpt, Bool.and_eq_true, decide_eq_true_eq] at h
      exact h
    exact ⟨n, by simp [validateIntArg, hb]⟩

theorem stArg_wf (args : List (String × JValue))
    (h1 : wfStrOpt (jlookup args "searchTerm") = true)
    (h2 : wfStrOpt (jlookup args "search_term") = true) :
    wfStrOpt (match jlookup args "searchTerm" with
      | some v => some v
      | none => jlookup args "search_term") = true := by
  cases hlk : jlookup args "searchTerm" with
  | none => exact h2
  | some v => rw [hlk] at h1; exact h1

/-- A successful validation on well-typed in-bounds arguments. -/
theorem modelValidate_ok_of_wf (args : List (String × JValue))
    (h : wfArgs args = true) : ∃ payload, modelValidate args = .ok payload := by
  rw [wfArgs] at h
  simp only [Bool.and_eq_true] at h
  obtain ⟨⟨⟨⟨hall, hst1⟩, hst2⟩, hlim⟩, hpage⟩ := h
  have hfilter : args.filter (fun p => !knownKeys.contains p.1) = [] := by
    rw [List.filter_eq_nil_iff]
    intro a ha
    have hc := List.all_eq_true.mp hall a ha
    simpa using hc
  obtain ⟨st, hstok⟩ := validateSearchTerm_ok_of_wf _ (stArg_wf args hst1 hst2)
  obtain ⟨ln, hlnok⟩ := validateIntArg_ok_of_wf "limit" 1 50 20 _ hlim
  obtain ⟨pn, hpnok⟩ := validateIntArg_ok_of_wf "page" 0 50 0 _ hpage
  refine ⟨{ search_term := st, limit := ln, page := pn }, ?_⟩
  simp [modelValidate, hfilter, hstok, hlnok, hpnok, errsOf]
  intro x y hxy
  have hc := List.all_eq_true.mp hall (x, y) hxy
  simpa using hc

/-- A validation failure surfaces as the `validationError` outcome. -/
theorem callToolStage_validationError (args : List (String × JValue))
    (errs : List String) (h : modelValidate args = .error errs) :
    callToolStage "mycf-job-list" (some args) = .validationError errs := by
  unfold callToolStage
  rw [if_neg (show ¬("mycf-job-list" ≠ TOOL_NAME) by simp [TOOL_NAME])]
  show (match modelValidate args with
    | .error errs => ToolOutcome.validationError errs
    | .ok payload => ToolOutcome.proceed payload) = .validationError errs
  rw [h]

/-- Any nonempty error-list position makes `modelValidate` fail with the
collected list. -/
theorem modelValidate_error_of_ne (args : List (String × JValue))
    (h : ((args.filter (fun p => !knownKeys.contains p.1)).map
            (fun p => "extra_forbidden: " ++ p.1) ++
          errsOf (validateSearchTerm (match jlookup args "searchTerm" with
            | some v => some v
            | none => jlookup args "search_term")) ++
          errsOf (validateIntArg "limit" 1 50 20 (jlookup args "limit")) ++
          errsOf (validateIntArg "page" 0 50 0 (jlookup args "page"))) ≠ []) :
    ∃ errs, errs ≠ [] ∧ modelValidate args = .error errs := by
  refine ⟨_, h, ?_⟩
  simp only [modelValidate]
  rw [if_neg (by simpa [List.isEmpty_iff] using h)]

/-- C7: an out-of-bounds `limit` (1-50) or `page` (0-50) or any unknown
argument key makes validation fail and the adapter return the
`validationError` outcome carrying the non-empty validation error list;
`proceed`, the only outcome that leads to the network request, is not
produced.  Well-typed arguments inside the bounds pass validation. -/
theorem C7_validation :
    (∀ (args : List (String × JValue)) (n : Int),
      jlookup args "limit" = some (.num n) → (n < 1 ∨ 50 < n) →
      ∃ errs, errs ≠ [] ∧
        callToolStage "mycf-job-list" (some args) = .validationError errs) ∧
    (∀ (args : List (String × JValue)) (n : Int),
      jlookup args "page" = some (.num n) → (n < 0 ∨ 50 < n) →
      ∃ errs, errs ≠ [] ∧
        callToolStage "mycf-job-list" (some args) = .validationError errs) ∧
    (∀ (args : List (String × JValue)) (k : String) (v : JValue),
      (k, v) ∈ args → k ∉ knownKeys →
      ∃ errs, errs ≠ [] ∧
        callToolStage "mycf-job-list" (some args) = .validationError errs) ∧
    (∀ args, wfArgs args = true →
      ∃ payload, callToolStage "mycf-job-list" (some args) = .proceed payload) := by
  refine ⟨?_, ?_, ?_, ?_⟩
  · intro args n hlk hb
    have hlerr : validateIntArg "limit" 1 50 20 (jlookup args "limit") =
        .error ["limit: out of range"] := by
      rw [hlk]
      simp only [validateIntArg]
      rw [if_neg (by omega)]
      rfl
    obtain ⟨errs, hne, herr⟩ := modelValidate_error_of_ne args (by
      rw [hlerr]
      simp [errsOf])
    exact ⟨errs, hne, callToolStage_validationError args errs herr⟩
  · intro args n hlk hb
    have hperr : validateIntArg "page" 0 50 0 (jlookup args "page") =
        .error ["page: out of range"] := by
      rw [hlk]
      simp only [validateIntArg]
      rw [if_neg (by omega)]
      rfl
    obtain ⟨errs, hne, herr⟩ := modelValidate_error_of_ne args (by
      rw [hperr]
      simp [errsOf])
    exact ⟨errs, hne, callToolStage_validationError args errs herr⟩
  · intro args k v hm hk
    have hfe : (k, v) ∈ args.filter (fun p => !knownKeys.contains p.1) :=
      List.mem_filter.mpr ⟨hm, by simpa using hk⟩
    obtain ⟨errs, hne, herr⟩ := modelValidate_error_of_ne args (by
      intro hnil
      simp only [List.append_eq_nil, List.map_eq_nil_iff] at hnil
      obtain ⟨⟨⟨hfil, h2⟩, h3⟩, h4⟩ := hnil
      rw [hfil] at hfe
      exact absurd hfe (List.not_mem_nil _))
    exact ⟨errs, hne, callToolStage_validationError args errs herr⟩
  · intro args h
    obtain ⟨payload, hok⟩ := modelValidate_ok_of_wf args h
    refine ⟨payload, ?_⟩
    unfold callToolStage
    rw [if_neg (show ¬("mycf-job-list" ≠ TOOL_NAME) by simp [TOOL_NAME])]
    show (match modelValidate args with
      | .error errs => ToolOutcome.validationError errs
      | .ok payload => ToolOutcome.proceed payload) = .proceed payload
    rw [hok]

theorem C7_validation_witness :
    (∃ errs, errs ≠ [] ∧ callToolStage "mycf-job-list"
      (some [("limit", JValue.num 51)]) = .validationError errs) ∧
    (∃ errs, errs ≠ [] ∧ callToolStage "mycf-job-list"
      (some [("page", JValue.num 51)]) = .validationError errs) ∧
    (∃ errs, errs ≠ [] ∧ callToolStage "mycf-job-list"
      (some [("bogus", JValue.null)]) = .validationError errs) ∧
    (∃ payload, callToolStage "mycf-job-list"
      (some [("limit", JValue.num 50), ("searchTerm", JValue.str "nurse")]) =
        .proceed payload) :=
  ⟨C7_validation.1 [("limit", JValue.num 51)] 51 rfl (by omega),
   C7_validation.2.1 [("page", JValue.num 51)] 51 rfl (by omega),
   C7_validation.2.2.1 [("bogus", JValue.null)] "bogus" JValue.null
     (List.mem_singleton.mpr rfl) (by decide),
   C7_validation.2.2.2 [("limit", JValue.num 50), ("searchTerm", JValue.str "nurse")]
     (by decide)⟩
